import Mathlib

/-!
Shallow embedding of the Game Boy CPU core of the `yage` repository
(packages under `gb/`: `cpu.go`, `opcodes.go`, `ram.go`, plus the earlier
revisions of `opcodes.go` and `ram.go` that are also part of the source
material, and the opcode test file).

Conventions of the embedding:
* Go `uint8` / `uint16` / `uint32` values are `Nat`s; every narrowing cast
  of the source is made explicit (`&&& 0xFF`, `% 256`, `% 65536`,
  `% 4294967296`).
* Go arrays are total functions `Nat → Nat` indexed exactly as the source
  indexes them.
* A Go function that can panic is modelled with `Option` (`none` = panic);
  a Go function returning `error` is modelled with `Except` or with an
  `Option GbError` component in its result.
* In-place mutation of the CPU / RAM structs is modelled by returning the
  updated structure.
-/

namespace Yage

/-- Error values of the `gb` package (`errors.New` sentinels in the source),
modelled as an enumeration of error kinds. `unknownRegisterType` also stands
for the panics `panic(gbErrUnknownRegisterType)` in readRegister/pokeRegister. -/
inductive GbError where
  | invalidOpcode
  | wrongOpcodeSize
  | outOfBounds
  | unknownRegisterType
  | unknownOpcode
  | unaligned
deriving DecidableEq, Repr

/-! ### Register identifiers (src/gb/cpu.go, gbRegisterType constants) -/

def gbRegisterUnknown : Nat := 0
def gbRegisterA : Nat := 1
def gbRegisterF : Nat := 2
def gbRegisterB : Nat := 3
def gbRegisterC : Nat := 4
def gbRegisterD : Nat := 5
def gbRegisterE : Nat := 6
def gbRegisterH : Nat := 7
def gbRegisterL : Nat := 8
def gbRegisterSP : Nat := 9
def gbRegisterPC : Nat := 10
def gbRegisterAF : Nat := 11
def gbRegisterBC : Nat := 12
def gbRegisterDE : Nat := 13
def gbRegisterHL : Nat := 14

/-- Go: `rt >= gbRegisterA && rt <= gbRegisterL`. -/
def is8Bit (rt : Nat) : Bool := gbRegisterA ≤ rt && rt ≤ gbRegisterL

/-- Go: `rt >= gbRegisterSP && rt <= gbRegisterHL`. -/
def is16Bit (rt : Nat) : Bool := gbRegisterSP ≤ rt && rt ≤ gbRegisterHL

/-- Go: `rt >= gbRegisterAF && rt <= gbRegisterHL`. -/
def isCombined (rt : Nat) : Bool := gbRegisterAF ≤ rt && rt ≤ gbRegisterHL

/-- src/gb/cpu.go `decodeRegisterType`: masks to the 3 least-significant bits
and maps them through the operand-field table; field value 6 (0b110) has no
case and falls through to `gbRegisterUnknown`. -/
def decodeRegisterType (t : Nat) : Nat :=
  match t &&& 0x7 with
  | 0 => gbRegisterB
  | 1 => gbRegisterC
  | 2 => gbRegisterD
  | 3 => gbRegisterE
  | 4 => gbRegisterH
  | 5 => gbRegisterL
  | 7 => gbRegisterA
  | _ => gbRegisterUnknown

/-! ### The register file (src/gb/cpu.go, gbCPU) -/

/-- Pointwise update of a function modelling a Go array assignment. -/
def updateFn (f : Nat → Nat) (i v : Nat) : Nat → Nat :=
  fun j => if j = i then v else f j

/-- The gbCPU struct: `reg8 [8]uint8` and `reg16 [2]uint16`, with each array
modelled as a function from (Go) index to cell value. -/
structure gbCPU where
  reg8 : Nat → Nat
  reg16 : Nat → Nat

/-- Go `newGBCPU()` : the zero-valued struct. -/
def newGBCPU : gbCPU := { reg8 := fun _ => 0, reg16 := fun _ => 0 }

/-- src/gb/cpu.go `(c *gbCPU) readRegister`. An 8-bit register reads its
`reg8` cell zero-extended. A 16-bit non-combined register is read from
`reg16[t - gbRegisterSP - 1]` where the index is a Go signed int: for SP the
index is -1, an out-of-range array access, so the Go code panics (`none`
here); for PC it is 0. A combined register recursively reads its two 8-bit
halves (those recursive calls always take the `is8Bit` branch and are
inlined here to their `reg8` cells) and combines them with Go `uint16`
arithmetic: `uint16(hi<<8) + uint16(lo)`, i.e. shift and sum modulo 2^16.
Any other register type panics (`none`). -/
def readRegister (c : gbCPU) (t : Nat) : Option Nat :=
  if is8Bit t then
    some (c.reg8 (t - 1))
  else if is16Bit t && !isCombined t then
    if t = gbRegisterSP then none
    else some (c.reg16 (t - gbRegisterSP - 1))
  else if t = gbRegisterAF then
    some (((c.reg8 (gbRegisterA - 1) <<< 8) % 65536 + c.reg8 (gbRegisterF - 1)) % 65536)
  else if t = gbRegisterBC then
    some (((c.reg8 (gbRegisterB - 1) <<< 8) % 65536 + c.reg8 (gbRegisterC - 1)) % 65536)
  else if t = gbRegisterDE then
    some (((c.reg8 (gbRegisterD - 1) <<< 8) % 65536 + c.reg8 (gbRegisterE - 1)) % 65536)
  else if t = gbRegisterHL then
    some (((c.reg8 (gbRegisterH - 1) <<< 8) % 65536 + c.reg8 (gbRegisterL - 1)) % 65536)
  else
    none

/-- src/gb/cpu.go `(c *gbCPU) pokeRegister`. An 8-bit register stores
`uint8(val & 0xFF)`. A 16-bit non-combined register stores into
`reg16[t - gbRegisterSP - 1]`; as in `readRegister` the SP index is -1 and
panics (`none`). A combined register stores `uint8(val >> 8)` into its high
8-bit cell and `uint8(val & 0xFF)` into its low 8-bit cell. Any other
register type panics (`none`). -/
def pokeRegister (c : gbCPU) (val t : Nat) : Option gbCPU :=
  if is8Bit t then
    some { c with reg8 := updateFn c.reg8 (t - 1) (val &&& 0xFF) }
  else if is16Bit t && !isCombined t then
    if t = gbRegisterSP then none
    else some { c with reg16 := updateFn c.reg16 (t - gbRegisterSP - 1) val }
  else if t = gbRegisterAF then
    some { c with reg8 :=
      (updateFn (updateFn c.reg8 (gbRegisterA - 1) ((val >>> 8) % 256))
        (gbRegisterF - 1) (val &&& 0xFF)) }
  else if t = gbRegisterBC then
    some { c with reg8 :=
      (updateFn (updateFn c.reg8 (gbRegisterB - 1) ((val >>> 8) % 256))
        (gbRegisterC - 1) (val &&& 0xFF)) }
  else if t = gbRegisterDE then
    some { c with reg8 :=
      (updateFn (updateFn c.reg8 (gbRegisterD - 1) ((val >>> 8) % 256))
        (gbRegisterE - 1) (val &&& 0xFF)) }
  else if t = gbRegisterHL then
    some { c with reg8 :=
      (updateFn (updateFn c.reg8 (gbRegisterH - 1) ((val >>> 8) % 256))
        (gbRegisterL - 1) (val &&& 0xFF)) }
  else
    none

/-! ### Opcodes (src/gb/opcodes.go and src/unnamed/part_000) -/

def gbOpcodeHeader01 : Nat := 0x01
def gbOpcodePart110 : Nat := 0x6
def gbOpcodeMaskHeader : Nat := 0xc0
def gbOpcodeMaskFirst : Nat := 0x38
def gbOpcodeMaskSecond : Nat := 0x7

def gbOpcodeLDRRp : Nat := 1
def gbOpcodeLDRHl : Nat := 2
def gbOpcodeLDHlR : Nat := 3

/-- The gbOpcode struct; `tipe`/`cycles` default to Go zero values in the
literal built by decode before classification. -/
structure gbOpcode where
  header : Nat
  first : Nat
  second : Nat
  data : List Nat
  tipe : Nat
  cycles : Nat
deriving DecidableEq, Repr

/-- src/gb/opcodes.go `decode`. Splits the first byte into header and operand
fields, then classifies header-01 (load-family) bytes. This revision guards
the illegal (HL)<-(HL) form by comparing `decodeRegisterType` of the fields
against `gbRegisterHL` - a value `decodeRegisterType` never produces - and
otherwise classifies by the same comparisons. -/
def decode (ops : List Nat) : Option gbOpcode × Int × Option GbError :=
  match ops with
  | [] => (none, 0, some GbError.invalidOpcode)
  | op0 :: rest =>
    let o : gbOpcode :=
      { header := (op0 &&& gbOpcodeMaskHeader) >>> 6
        first := (op0 &&& gbOpcodeMaskFirst) >>> 3
        second := op0 &&& gbOpcodeMaskSecond
        data := rest
        tipe := 0
        cycles := 0 }
    if o.header = gbOpcodeHeader01 then
      let fr := decodeRegisterType o.first
      let sr := decodeRegisterType o.second
      if fr = gbRegisterHL ∧ sr = gbRegisterHL then
        (none, 0, some GbError.invalidOpcode)
      else if o.data.length > 0 then
        (none, -(o.data.length : Int), some GbError.wrongOpcodeSize)
      else if fr = gbRegisterHL then
        (some { o with tipe := gbOpcodeLDHlR, cycles := 2 }, 0, none)
      else if sr = gbRegisterHL then
        (some { o with tipe := gbOpcodeLDRHl, cycles := 2 }, 0, none)
      else
        (some { o with tipe := gbOpcodeLDRRp, cycles := 1 }, 0, none)
    else
      (none, 0, some GbError.invalidOpcode)

/-- src/unnamed/part_000 `decode` (the revision of the opcode decoder that
matches the current `decodeRegisterType` and the repository's opcode tests).
Header-01 bytes are size-checked first, then classified by comparing the raw
operand fields against the memory sentinel `gbOpcodePart110`, and the
register-to-register form additionally requires both fields to decode to
known registers. -/
def decodePart000 (ops : List Nat) : Option gbOpcode × Int × Option GbError :=
  match ops with
  | [] => (none, 0, some GbError.invalidOpcode)
  | op0 :: rest =>
    let o : gbOpcode :=
      { header := (op0 &&& gbOpcodeMaskHeader) >>> 6
        first := (op0 &&& gbOpcodeMaskFirst) >>> 3
        second := op0 &&& gbOpcodeMaskSecond
        data := rest
        tipe := 0
        cycles := 0 }
    if o.header = gbOpcodeHeader01 then
      let fr := decodeRegisterType o.first
      let sr := decodeRegisterType o.second
      if o.data.length > 0 then
        (none, -(o.data.length : Int), some GbError.wrongOpcodeSize)
      else if o.first = gbOpcodePart110 then
        (some { o with tipe := gbOpcodeLDHlR, cycles := 2 }, 0, none)
      else if o.second = gbOpcodePart110 then
        (some { o with tipe := gbOpcodeLDRHl, cycles := 2 }, 0, none)
      else if fr ≠ gbRegisterUnknown ∧ sr ≠ gbRegisterUnknown then
        (some { o with tipe := gbOpcodeLDRRp, cycles := 1 }, 0, none)
      else
        (none, 0, some GbError.invalidOpcode)
    else
      (none, 0, some GbError.invalidOpcode)

/-! ### RAM (src/gb/ram.go) -/

def gbByteMask : Nat := 0xFF
def gbMaxAddress : Nat := 0x10000

/-- Go `uint32` truncation, used where the source adds `uint32` offsets. -/
def uint32 (x : Nat) : Nat := x % 4294967296

/-- The gbRAM struct: `mem [gbMaxAddress]uint8` as a function from address to
byte. -/
structure gbRAM where
  mem : Nat → Nat

/-- Go `newGBRAM()` : the zero-valued struct. -/
def newGBRAM : gbRAM := { mem := fun _ => 0 }

/-- src/gb/ram.go `(r *gbRAM) poke`: bounds check, then store. -/
def poke (r : gbRAM) (addr val : Nat) : Except GbError gbRAM :=
  if addr ≥ gbMaxAddress then Except.error GbError.outOfBounds
  else Except.ok { mem := updateFn r.mem addr val }

/-- src/gb/ram.go `(r *gbRAM) read`: bounds check, then load. -/
def read (r : gbRAM) (addr : Nat) : Except GbError Nat :=
  if addr ≥ gbMaxAddress then Except.error GbError.outOfBounds
  else Except.ok (r.mem addr)

/-- Loop body of src/gb/ram.go `readN`: reads bytes at `addr + i` for
`i = i0, i0+1, ..., n-1` (the `addr + i` sum is Go `uint32` addition),
returning the first error. -/
def readNFrom (r : gbRAM) (addr i n : Nat) : Except GbError (List Nat) :=
  if _h : i < n then
    match read r (uint32 (addr + i)) with
    | Except.error e => Except.error e
    | Except.ok b =>
      match readNFrom r addr (i + 1) n with
      | Except.error e => Except.error e
      | Except.ok bs => Except.ok (b :: bs)
  else
    Except.ok []
termination_by n - i

/-- src/gb/ram.go `readN`. -/
def readN (r : gbRAM) (addr n : Nat) : Except GbError (List Nat) :=
  readNFrom r addr 0 n

/-- Loop body of src/gb/ram.go `pokeN` starting at loop index `i`: pokes
`vals` left-to-right at `addr + i` (Go `uint32` addition) and stops at the
first error, returning the RAM as mutated so far together with the error. -/
def pokeNAux (r : gbRAM) (addr : Nat) (vals : List Nat) (i : Nat) :
    gbRAM × Option GbError :=
  match vals with
  | [] => (r, none)
  | v :: vs =>
    match poke r (uint32 (addr + i)) v with
    | Except.error e => (r, some e)
    | Except.ok r2 => pokeNAux r2 addr vs (i + 1)

/-- src/gb/ram.go `pokeN`. -/
def pokeN (r : gbRAM) (addr : Nat) (vals : List Nat) : gbRAM × Option GbError :=
  pokeNAux r addr vals 0

/-! ### Execution engine (src/gb/cpu.go) -/

/-- src/gb/cpu.go `pokeRegisterIntoRAM`: reads register `t` (a panic of the
Go `readRegister` is surfaced as `unknownRegisterType`), splits it into low
and high bytes, pokes the low byte at `addr`, and when `only8Bit` is false
also pokes the high byte at `addr + 1` (`uint32` addition); the second
poke's error, if any, is the function's result. -/
def pokeRegisterIntoRAM (c : gbCPU) (r : gbRAM) (t addr : Nat)
    (only8Bit : Bool) : gbRAM × Option GbError :=
  match readRegister c t with
  | none => (r, some GbError.unknownRegisterType)
  | some val =>
    let first := val &&& 0xFF
    let second := (val >>> 8) % 256
    match poke r addr first with
    | Except.error e => (r, some e)
    | Except.ok r2 =>
      if !only8Bit then
        match poke r2 (uint32 (addr + 1)) second with
        | Except.error e => (r2, some e)
        | Except.ok r3 => (r3, none)
      else
        (r2, none)

/-- src/gb/cpu.go `pokeRAMIntoRegister`: reads 1 byte (2 when `only8Bit` is
false) starting at `addr` and pokes the value into register `t`. In the
two-byte case the source computes `uint16(vals[0]<<8) + uint16(vals[1])`
where `vals[0]<<8` is a `uint8` shift, hence `(vals[0] <<< 8) % 256`. The
source also reassigns the global `gbErrUnknownOpcode` error variable at this
point, which changes no value modelled here. A panic of the Go
`pokeRegister` is surfaced as `unknownRegisterType`. -/
def pokeRAMIntoRegister (c : gbCPU) (r : gbRAM) (t addr : Nat)
    (only8Bit : Bool) : gbCPU × Option GbError :=
  let res := if !only8Bit then readN r addr 2 else readN r addr 1
  match res with
  | Except.error e => (c, some e)
  | Except.ok vals =>
    let val :=
      if !only8Bit then
        ((vals.getD 0 0 <<< 8) % 256 + vals.getD 1 0) % 65536
      else
        vals.getD 0 0
    match pokeRegister c val t with
    | none => (c, some GbError.unknownRegisterType)
    | some c2 => (c2, none)

/-- src/gb/cpu.go `pokeRegisterIntoRegister`: the one-line composition
`c.pokeRegister(c.readRegister(from), to)`; `none` models a panic of either
call (the register file is unchanged at the moment of such a panic). -/
def pokeRegisterIntoRegister (c : gbCPU) (src dst : Nat) : Option gbCPU :=
  (readRegister c src).bind (fun v => pokeRegister c v dst)

/-- src/gb/cpu.go `(c *gbCPU) execute`: dispatch on `op.tipe`. The
`readRegister` of HL in the two memory cases cannot panic (HL is a combined
register); the defensive `none` branches mirror that a panic would leave the
state unchanged. `uint32(...)` is the value-preserving cast of the uint16
register value. Unrecognized kinds fail with `unknownOpcode`. -/
def execute (c : gbCPU) (r : gbRAM) (op : gbOpcode) :
    gbCPU × gbRAM × Option GbError :=
  if op.tipe = gbOpcodeLDRRp then
    let toR := decodeRegisterType op.first
    let fromR := decodeRegisterType op.second
    match pokeRegisterIntoRegister c fromR toR with
    | none => (c, r, some GbError.unknownRegisterType)
    | some c2 => (c2, r, none)
  else if op.tipe = gbOpcodeLDRHl then
    let toR := decodeRegisterType op.first
    match readRegister c gbRegisterHL with
    | none => (c, r, some GbError.unknownRegisterType)
    | some a =>
      let res := pokeRAMIntoRegister c r toR (uint32 a) true
      (res.1, r, res.2)
  else if op.tipe = gbOpcodeLDHlR then
    let fromR := decodeRegisterType op.second
    match readRegister c gbRegisterHL with
    | none => (c, r, some GbError.unknownRegisterType)
    | some a =>
      let res := pokeRegisterIntoRAM c r fromR (uint32 a) true
      (c, res.1, res.2)
  else
    (c, r, some GbError.unknownOpcode)

/-- Harness for quantifying over sequences of register writes: folds
`pokeRegister` over a list of (value, register) pairs; a write that would
panic in Go (`pokeRegister` = `none`) leaves the register file as it was at
the moment of the panic. -/
def applyWrites (c : gbCPU) (ws : List (Nat × Nat)) : gbCPU :=
  ws.foldl (fun cc w => (pokeRegister cc w.1 w.2).getD cc) c

/-! ### Helper lemmas -/

lemma and255_eq_mod (v : Nat) : v &&& 255 = v % 256 := by
  have h := Nat.and_pow_two_sub_one_eq_mod v 8
  norm_num at h
  exact h

lemma and255_of_lt {v : Nat} (h : v < 256) : v &&& 255 = v := by
  rw [and255_eq_mod]
  exact Nat.mod_eq_of_lt h

lemma and15_of_and255 (v : Nat) : (v &&& 255) &&& 15 = v &&& 15 := by
  rw [Nat.and_assoc, show (255 : Nat) &&& 15 = 15 by decide]

lemma and7_of_lt {t : Nat} (h : t < 8) : t &&& 7 = t := by
  have h2 := Nat.and_pow_two_sub_one_eq_mod t 3
  norm_num at h2
  rw [h2]
  exact Nat.mod_eq_of_lt h

lemma decodeRegisterType_le (t : Nat) : decodeRegisterType t ≤ 8 := by
  unfold decodeRegisterType
  have h : t &&& 7 ≤ 7 := Nat.and_le_right
  generalize hgen : t &&& 7 = k at h ⊢
  interval_cases k <;> decide

lemma decodeRegisterType_ne_HL (t : Nat) : decodeRegisterType t ≠ gbRegisterHL := by
  have h := decodeRegisterType_le t
  unfold gbRegisterHL
  omega

lemma decodeRegisterType_valid {t : Nat} (h : t &&& 7 ≠ 6) :
    is8Bit (decodeRegisterType t) = true := by
  unfold decodeRegisterType
  have h7 : t &&& 7 ≤ 7 := Nat.and_le_right
  generalize hgen : t &&& 7 = k at h h7 ⊢
  interval_cases k <;> first | decide | exact absurd rfl h

lemma decodeRegisterType_sentinel : decodeRegisterType 6 = gbRegisterUnknown := by
  decide

lemma decodeRegisterType_inj {f s : Nat} (hf : f < 8) (hs : s < 8) (hne : f ≠ s)
    (hf6 : f ≠ 6) (hs6 : s ≠ 6) :
    decodeRegisterType f ≠ decodeRegisterType s := by
  interval_cases f <;> interval_cases s <;>
    first
      | exact absurd rfl hne
      | exact absurd rfl hf6
      | exact absurd rfl hs6
      | decide

lemma is8Bit_bounds {t : Nat} (h : is8Bit t = true) : 1 ≤ t ∧ t ≤ 8 := by
  unfold is8Bit gbRegisterA gbRegisterL at h
  simpa using h

lemma pokeRegister_8bit (c : gbCPU) (v t : Nat) (h : is8Bit t = true) :
    pokeRegister c v t =
      some { c with reg8 := updateFn c.reg8 (t - 1) (v &&& 0xFF) } := by
  unfold pokeRegister
  rw [if_pos h]

lemma readRegister_8bit (c : gbCPU) (t : Nat) (h : is8Bit t = true) :
    readRegister c t = some (c.reg8 (t - 1)) := by
  unfold readRegister
  rw [if_pos h]

lemma pokeRegister_getD_reg16 (c : gbCPU) (v t : Nat) (ht : t ≤ 8) :
    ((pokeRegister c v t).getD c).reg16 = c.reg16 := by
  interval_cases t <;> rfl

/-! ### Claim theorems -/

/-- C9: for every 3-bit operand field value, `decodeRegisterType` returns
either an 8-bit register identifier or `gbRegisterUnknown`; the memory
sentinel 6 maps to `gbRegisterUnknown`; and the result is never
`gbRegisterHL` nor any other 16-bit or combined register identifier. -/
theorem c9_decodeRegisterType_range :
    (∀ t : Nat, is8Bit (decodeRegisterType t) = true ∨
      decodeRegisterType t = gbRegisterUnknown)
    ∧ decodeRegisterType 6 = gbRegisterUnknown
    ∧ (∀ t : Nat, decodeRegisterType t ≠ gbRegisterHL ∧
        is16Bit (decodeRegisterType t) = false) := by
  refine ⟨fun t => ?_, decodeRegisterType_sentinel,
    fun t => ⟨decodeRegisterType_ne_HL t, ?_⟩⟩
  · by_cases h : t &&& 7 = 6
    · right
      unfold decodeRegisterType
      rw [h]
    · exact Or.inl (decodeRegisterType_valid h)
  · have h := decodeRegisterType_le t
    have h9 : ¬ (gbRegisterSP ≤ decodeRegisterType t) := by
      unfold gbRegisterSP
      omega
    unfold is16Bit
    simp [h9]

/-- C2 (code bug): decoding the single byte 0x76 (header 01, both operand
fields 110) does NOT fail with InvalidOpcode in either revision of decode:
the src/gb/opcodes.go revision classifies it as a register-to-register load
(its (HL)<-(HL) guard compares against `gbRegisterHL`, which
`decodeRegisterType` never returns), and the src/unnamed/part_000 revision
classifies it as (HL)<-R because it tests the first field before the
second. -/
theorem c2_decode_0x76_succeeds :
    decode [0x76] =
      (some { header := 1, first := 6, second := 6, data := [],
              tipe := gbOpcodeLDRRp, cycles := 1 }, 0, none)
    ∧ decodePart000 [0x76] =
      (some { header := 1, first := 6, second := 6, data := [],
              tipe := gbOpcodeLDHlR, cycles := 2 }, 0, none) := by
  exact ⟨by decide, by decide⟩

/-- C5: a header-01 load-family opcode byte followed by k >= 1 trailing
bytes fails to decode with WrongOpcodeSize and delta -k, in both revisions
of decode. -/
theorem c5_trailing_bytes_wrong_size (b : Nat) (d : List Nat)
    (hh : (b &&& gbOpcodeMaskHeader) >>> 6 = gbOpcodeHeader01) (hd : d ≠ []) :
    decode (b :: d) =
      (none, -(d.length : Int), some GbError.wrongOpcodeSize)
    ∧ decodePart000 (b :: d) =
      (none, -(d.length : Int), some GbError.wrongOpcodeSize) := by
  have hlen : 0 < d.length := List.length_pos.mpr hd
  have h14 : decodeRegisterType ((b &&& gbOpcodeMaskFirst) >>> 3) ≠ gbRegisterHL :=
    decodeRegisterType_ne_HL _
  constructor
  · simp [decode, hh, h14, hlen]
  · simp [decodePart000, hh, hlen]

/-- C1: in the decode revision of src/unnamed/part_000 (the one consistent
with the current `decodeRegisterType` and the repository's opcode tests), a
header-01 byte whose first field is the memory sentinel 110 and whose second
field is a valid register encoding decodes to kind LDHlR ((HL)<-R) with
cycle cost 2, and symmetrically a byte whose second field is 110 and whose
first field is a valid register decodes to kind LDRHl (R<-(HL)) with cycle
cost 2. -/
theorem c1_memory_sentinel_decode :
    (∀ b : Nat,
      (b &&& gbOpcodeMaskHeader) >>> 6 = gbOpcodeHeader01 →
      (b &&& gbOpcodeMaskFirst) >>> 3 = gbOpcodePart110 →
      b &&& gbOpcodeMaskSecond ≠ gbOpcodePart110 →
      decodePart000 [b] =
        (some { header := gbOpcodeHeader01, first := gbOpcodePart110,
                second := b &&& gbOpcodeMaskSecond, data := [],
                tipe := gbOpcodeLDHlR, cycles := 2 }, 0, none))
    ∧ (∀ b : Nat,
      (b &&& gbOpcodeMaskHeader) >>> 6 = gbOpcodeHeader01 →
      (b &&& gbOpcodeMaskFirst) >>> 3 ≠ gbOpcodePart110 →
      b &&& gbOpcodeMaskSecond = gbOpcodePart110 →
      decodePart000 [b] =
        (some { header := gbOpcodeHeader01,
                first := (b &&& gbOpcodeMaskFirst) >>> 3,
                second := gbOpcodePart110, data := [],
                tipe := gbOpcodeLDRHl, cycles := 2 }, 0, none)) := by
  constructor
  · intro b h1 h2 _h3
    simp [decodePart000, h1, h2]
  · intro b h1 h2 h3
    simp [decodePart000, h1, h2, h3]

/-- Witness for C1: the concrete bytes 0x70 (LD (HL),B) and 0x46
(LD B,(HL)). -/
theorem c1_memory_sentinel_decode_witness :
    decodePart000 [0x70] =
      (some { header := 1, first := 6, second := 0, data := [],
              tipe := gbOpcodeLDHlR, cycles := 2 }, 0, none)
    ∧ decodePart000 [0x46] =
      (some { header := 1, first := 0, second := 6, data := [],
              tipe := gbOpcodeLDRHl, cycles := 2 }, 0, none) := by
  constructor
  · have h := c1_memory_sentinel_decode.1 0x70 (by decide) (by decide) (by decide)
    simpa using h
  · have h := c1_memory_sentinel_decode.2 0x46 (by decide) (by decide) (by decide)
    simpa using h

/-- Witness for C5: the byte 0x41 (LD B,C) followed by two trailing bytes
fails with WrongOpcodeSize and delta -2 in both revisions. -/
theorem c5_trailing_bytes_wrong_size_witness :
    decode [0x41, 9, 9] = (none, -2, some GbError.wrongOpcodeSize)
    ∧ decodePart000 [0x41, 9, 9] = (none, -2, some GbError.wrongOpcodeSize) := by
  have h := c5_trailing_bytes_wrong_size 0x41 [9, 9] (by decide) (by decide)
  simpa using h

lemma readRegister_HL (c : gbCPU) :
    readRegister c gbRegisterHL =
      some (((c.reg8 6 <<< 8) % 65536 + c.reg8 7) % 65536) := rfl

lemma pokeRegister_HL (c : gbCPU) (v : Nat) :
    pokeRegister c v gbRegisterHL =
      some { c with reg8 :=
        (updateFn (updateFn c.reg8 6 ((v >>> 8) % 256)) 7 (v &&& 255)) } := rfl

lemma shiftLeft8_or (h l : Nat) (hl : l < 256) : h <<< 8 ||| l = 256 * h + l := by
  have hor := Nat.mul_add_lt_is_or (show l < 2 ^ 8 by simpa using hl) h
  have hsh : h <<< 8 = 2 ^ 8 * h := by rw [Nat.shiftLeft_eq, Nat.mul_comm]
  rw [hsh, ← hor]

/-- C4: writing h to H and l to L and then reading the combined register HL
yields (h <<< 8) ||| l; writing a 16-bit value w to HL and then reading H
yields w >>> 8 and reading L yields w &&& 0xFF. -/
theorem c4_combined_register_aliasing :
    (∀ (c : gbCPU) (h l : Nat) (c1 c2 : gbCPU), h < 256 → l < 256 →
      pokeRegister c h gbRegisterH = some c1 →
      pokeRegister c1 l gbRegisterL = some c2 →
      readRegister c2 gbRegisterHL = some (h <<< 8 ||| l))
    ∧ (∀ (c : gbCPU) (w : Nat) (c3 : gbCPU), w < 65536 →
      pokeRegister c w gbRegisterHL = some c3 →
      readRegister c3 gbRegisterH = some (w >>> 8) ∧
      readRegister c3 gbRegisterL = some (w &&& 0xFF)) := by
  constructor
  · intro c h l c1 c2 hh hl hp1 hp2
    have hc1 : c1 = { c with reg8 := updateFn c.reg8 (gbRegisterH - 1) (h &&& 0xFF) } := by
      rw [pokeRegister_8bit _ _ _ (by decide)] at hp1
      exact (Option.some.inj hp1).symm
    have hc2 : c2 = { c1 with reg8 := updateFn c1.reg8 (gbRegisterL - 1) (l &&& 0xFF) } := by
      rw [pokeRegister_8bit _ _ _ (by decide)] at hp2
      exact (Option.some.inj hp2).symm
    have h6 : c2.reg8 6 = h &&& 0xFF := by
      rw [hc2, hc1]
      simp [updateFn, gbRegisterH, gbRegisterL]
    have h7 : c2.reg8 7 = l &&& 0xFF := by
      rw [hc2]
      simp [updateFn, gbRegisterL]
    rw [readRegister_HL, h6, h7, and255_of_lt hh, and255_of_lt hl]
    congr 1
    rw [shiftLeft8_or h l hl, Nat.shiftLeft_eq, show (2 : Nat) ^ 8 = 256 from rfl]
    omega
  · intro c w c3 hw hp
    have hc3 : c3 = { c with reg8 :=
        (updateFn (updateFn c.reg8 6 ((w >>> 8) % 256)) 7 (w &&& 255)) } := by
      rw [pokeRegister_HL] at hp
      exact (Option.some.inj hp).symm
    have hH : c3.reg8 (gbRegisterH - 1) = (w >>> 8) % 256 := by
      rw [hc3]
      simp [updateFn, gbRegisterH]
    have hL : c3.reg8 (gbRegisterL - 1) = w &&& 255 := by
      rw [hc3]
      simp [updateFn, gbRegisterL]
    constructor
    · rw [readRegister_8bit _ _ (by decide), hH]
      have hlt : w >>> 8 < 256 := by
        rw [Nat.shiftRight_eq_div_pow]
        norm_num
        omega
      rw [Nat.mod_eq_of_lt hlt]
    · rw [readRegister_8bit _ _ (by decide), hL]

/-- Witness for C4 at h = 0xAB, l = 0xCD, w = 0x1234 on the fresh CPU. -/
theorem c4_combined_register_aliasing_witness :
    readRegister
      ((pokeRegister ((pokeRegister newGBCPU 0xAB gbRegisterH).getD newGBCPU)
        0xCD gbRegisterL).getD newGBCPU) gbRegisterHL =
      some (0xAB <<< 8 ||| 0xCD)
    ∧ readRegister ((pokeRegister newGBCPU 0x1234 gbRegisterHL).getD newGBCPU)
        gbRegisterH = some (0x1234 >>> 8)
    ∧ readRegister ((pokeRegister newGBCPU 0x1234 gbRegisterHL).getD newGBCPU)
        gbRegisterL = some (0x1234 &&& 0xFF) := by
  refine ⟨?_, ?_⟩
  · exact c4_combined_register_aliasing.1 newGBCPU 0xAB 0xCD _ _
      (by decide) (by decide) rfl rfl
  · exact c4_combined_register_aliasing.2 newGBCPU 0x1234 _ (by decide) rfl

/-- C3: for distinct valid (non-sentinel) register encodings f and s and
8-bit values v1, v2: after poking v1 into the register encoded by f and v2
into the register encoded by s, executing the register-to-register load
whose first field is f (destination) and second field is s (source)
succeeds, leaves RAM untouched, and afterwards both registers read v2. -/
theorem c3_register_to_register_load
    (c : gbCPU) (rm : gbRAM) (f s v1 v2 : Nat)
    (hf : f < 8) (hs : s < 8) (hf6 : f ≠ 6) (hs6 : s ≠ 6) (hne : f ≠ s)
    (hv1 : v1 < 256) (hv2 : v2 < 256)
    (c1 c2 : gbCPU)
    (hp1 : pokeRegister c v1 (decodeRegisterType f) = some c1)
    (hp2 : pokeRegister c1 v2 (decodeRegisterType s) = some c2) :
    (execute c2 rm { header := gbOpcodeHeader01, first := f, second := s,
                     data := [], tipe := gbOpcodeLDRRp, cycles := 1 }).2 =
      (rm, none)
    ∧ readRegister
        (execute c2 rm { header := gbOpcodeHeader01, first := f, second := s,
                         data := [], tipe := gbOpcodeLDRRp, cycles := 1 }).1
        (decodeRegisterType f) = some v2
    ∧ readRegister
        (execute c2 rm { header := gbOpcodeHeader01, first := f, second := s,
                         data := [], tipe := gbOpcodeLDRRp, cycles := 1 }).1
        (decodeRegisterType s) = some v2 := by
  have h8f : is8Bit (decodeRegisterType f) = true :=
    decodeRegisterType_valid (by rw [and7_of_lt hf]; exact hf6)
  have h8s : is8Bit (decodeRegisterType s) = true :=
    decodeRegisterType_valid (by rw [and7_of_lt hs]; exact hs6)
  have hbf := is8Bit_bounds h8f
  have hbs := is8Bit_bounds h8s
  have hrne : decodeRegisterType f ≠ decodeRegisterType s :=
    decodeRegisterType_inj hf hs hne hf6 hs6
  have hc2 : c2 = { c1 with reg8 :=
      (updateFn c1.reg8 (decodeRegisterType s - 1) (v2 &&& 0xFF)) } := by
    rw [pokeRegister_8bit _ _ _ h8s] at hp2
    exact (Option.some.inj hp2).symm
  have hcell : c2.reg8 (decodeRegisterType s - 1) = v2 &&& 0xFF := by
    rw [hc2]
    simp [updateFn]
  have hexec : execute c2 rm { header := gbOpcodeHeader01, first := f,
                               second := s, data := [],
                               tipe := gbOpcodeLDRRp, cycles := 1 } =
      ({ c2 with reg8 := (updateFn c2.reg8 (decodeRegisterType f - 1)
          ((v2 &&& 0xFF) &&& 0xFF)) }, rm, none) := by
    simp only [execute, pokeRegisterIntoRegister, readRegister_8bit _ _ h8s,
      hcell, Option.some_bind, pokeRegister_8bit _ _ _ h8f, if_true]
  rw [hexec]
  have hv2' : (v2 &&& 0xFF) &&& 0xFF = v2 := by
    rw [Nat.and_assoc, show (255 : Nat) &&& 255 = 255 by decide, and255_of_lt hv2]
  refine ⟨rfl, ?_, ?_⟩
  · rw [readRegister_8bit _ _ h8f]
    simp [updateFn, hv2']
  · rw [readRegister_8bit _ _ h8s]
    have hidx : decodeRegisterType s - 1 ≠ decodeRegisterType f - 1 := by
      omega
    simp only [updateFn, if_neg hidx]
    rw [hcell, and255_of_lt hv2]

/-- Witness for C3: registers B (field 0) and C (field 1), v1 = 0x24,
v2 = 0x42, on the fresh CPU and RAM. -/
theorem c3_register_to_register_load_witness :
    (execute ((pokeRegister ((pokeRegister newGBCPU 0x24
        (decodeRegisterType 0)).getD newGBCPU) 0x42
        (decodeRegisterType 1)).getD newGBCPU) newGBRAM
      { header := gbOpcodeHeader01, first := 0, second := 1, data := [],
        tipe := gbOpcodeLDRRp, cycles := 1 }).2 = (newGBRAM, none)
    ∧ readRegister (execute ((pokeRegister ((pokeRegister newGBCPU 0x24
        (decodeRegisterType 0)).getD newGBCPU) 0x42
        (decodeRegisterType 1)).getD newGBCPU) newGBRAM
      { header := gbOpcodeHeader01, first := 0, second := 1, data := [],
        tipe := gbOpcodeLDRRp, cycles := 1 }).1 (decodeRegisterType 0) =
      some 0x42 := by
  have h := c3_register_to_register_load newGBCPU newGBRAM 0 1 0x24 0x42
    (by decide) (by decide) (by decide) (by decide) (by decide)
    (by decide) (by decide)
    ((pokeRegister newGBCPU 0x24 (decodeRegisterType 0)).getD newGBCPU)
    ((pokeRegister ((pokeRegister newGBCPU 0x24
      (decodeRegisterType 0)).getD newGBCPU) 0x42
      (decodeRegisterType 1)).getD newGBCPU)
    rfl rfl
  exact ⟨h.1, h.2.1⟩

lemma pokeNAux_mem_lo : ∀ (vals : List Nat) (r : gbRAM) (addr i a : Nat),
    addr + i + vals.length ≤ 4294967296 →
    (a < addr + i ∨ addr + i + vals.length ≤ a) →
    (pokeNAux r addr vals i).1.mem a = r.mem a := by
  intro vals
  induction vals with
  | nil =>
    intro r addr i a h1 h2
    rfl
  | cons v vs ih =>
    intro r addr i a h1 h2
    simp only [List.length_cons] at h1 h2
    have hmod : uint32 (addr + i) = addr + i := by
      unfold uint32
      exact Nat.mod_eq_of_lt (by omega)
    simp only [pokeNAux, hmod, poke]
    by_cases hb : addr + i ≥ gbMaxAddress
    · rw [if_pos hb]
    · rw [if_neg hb]
      show (pokeNAux { mem := updateFn r.mem (addr + i) v } addr vs (i + 1)).1.mem a
        = r.mem a
      rw [ih { mem := updateFn r.mem (addr + i) v } addr (i + 1) a
        (by omega) (by omega)]
      simp only [updateFn]
      rw [if_neg (by omega)]

lemma pokeNAux_error : ∀ (vals : List Nat) (r : gbRAM) (addr i j : Nat),
    addr + i + vals.length ≤ 4294967296 →
    j < vals.length → gbMaxAddress ≤ addr + i + j →
    (pokeNAux r addr vals i).2 = some GbError.outOfBounds := by
  intro vals
  induction vals with
  | nil =>
    intro r addr i j h1 hj hjb
    exact absurd hj (by simp)
  | cons v vs ih =>
    intro r addr i j h1 hj hjb
    simp only [List.length_cons] at h1 hj
    have hmod : uint32 (addr + i) = addr + i := by
      unfold uint32
      exact Nat.mod_eq_of_lt (by omega)
    simp only [pokeNAux, hmod, poke]
    by_cases hb : addr + i ≥ gbMaxAddress
    · rw [if_pos hb]
    · rw [if_neg hb]
      show (pokeNAux { mem := updateFn r.mem (addr + i) v } addr vs (i + 1)).2
        = some GbError.outOfBounds
      have hj1 : 1 ≤ j := by
        by_contra hc
        have : j = 0 := by omega
        subst this
        omega
      exact ih { mem := updateFn r.mem (addr + i) v } addr (i + 1) (j - 1)
        (by omega) (by omega) (by omega)

lemma pokeNAux_written : ∀ (vals : List Nat) (r : gbRAM) (addr i j : Nat),
    addr + i + vals.length ≤ 4294967296 →
    j < vals.length → addr + i + j < gbMaxAddress →
    (pokeNAux r addr vals i).1.mem (addr + i + j) = vals.getD j 0 := by
  intro vals
  induction vals with
  | nil =>
    intro r addr i j h1 hj hjb
    exact absurd hj (by simp)
  | cons v vs ih =>
    intro r addr i j h1 hj hjb
    simp only [List.length_cons] at h1 hj
    have hmod : uint32 (addr + i) = addr + i := by
      unfold uint32
      exact Nat.mod_eq_of_lt (by omega)
    have hb : ¬ (addr + i ≥ gbMaxAddress) := by omega
    simp only [pokeNAux, hmod, poke]
    rw [if_neg hb]
    show (pokeNAux { mem := updateFn r.mem (addr + i) v } addr vs (i + 1)).1.mem
        (addr + i + j) = (v :: vs).getD j 0
    match j with
    | 0 =>
      rw [pokeNAux_mem_lo vs { mem := updateFn r.mem (addr + i) v } addr (i + 1)
        (addr + i + 0) (by omega) (by omega)]
      simp [updateFn]
    | Nat.succ j2 =>
      have := ih { mem := updateFn r.mem (addr + i) v } addr (i + 1) j2
        (by omega) (by omega) (by omega)
      have harith : addr + (i + 1) + j2 = addr + i + (j2 + 1) := by omega
      rw [harith] at this
      rw [this]
      simp

/-- C6: when a multi-byte pokeN write contains an out-of-bounds address, the
call returns the OutOfBounds error, and every byte whose address precedes
the 64 KiB bound (the first failing address) has been written with its new
value - no rollback. -/
theorem c6_pokeN_partial_write (r : gbRAM) (addr : Nat) (vals : List Nat)
    (hfit : addr + vals.length ≤ 4294967296)
    (hoob : ∃ j, j < vals.length ∧ gbMaxAddress ≤ addr + j) :
    (pokeN r addr vals).2 = some GbError.outOfBounds
    ∧ ∀ j, j < vals.length → addr + j < gbMaxAddress →
        (pokeN r addr vals).1.mem (addr + j) = vals.getD j 0 := by
  obtain ⟨j0, hj0, hj0b⟩ := hoob
  constructor
  · have h := pokeNAux_error vals r addr 0 j0 (by omega) hj0 (by omega)
    simpa [pokeN] using h
  · intro j hj hjb
    have h := pokeNAux_written vals r addr 0 j (by omega) hj (by omega)
    simpa [pokeN] using h

/-- Witness for C6: writing three bytes starting at 0xFFFE fails with
OutOfBounds, and the two in-bounds bytes were written. -/
theorem c6_pokeN_partial_write_witness :
    (pokeN newGBRAM 0xFFFE [1, 2, 3]).2 = some GbError.outOfBounds
    ∧ (pokeN newGBRAM 0xFFFE [1, 2, 3]).1.mem (0xFFFE + 1) = [1, 2, 3].getD 1 0 := by
  have h := c6_pokeN_partial_write newGBRAM 0xFFFE [1, 2, 3] (by decide)
    ⟨2, by decide, by decide⟩
  exact ⟨h.1, h.2 1 (by decide) (by decide)⟩

lemma pokeRegister_preserves_F_nibble (c : gbCPU) (v t : Nat)
    (hc : c.reg8 1 &&& 0x0F = 0)
    (hv : (t = gbRegisterF ∨ t = gbRegisterAF) → v &&& 0x0F = 0) :
    ((pokeRegister c v t).getD c).reg8 1 &&& 0x0F = 0 := by
  by_cases h8 : is8Bit t = true
  · rw [pokeRegister_8bit c v t h8]
    simp only [Option.getD_some]
    by_cases htF : t = gbRegisterF
    · subst htF
      simp only [updateFn, gbRegisterF]
      norm_num
      rw [and15_of_and255]
      exact hv (Or.inl rfl)
    · have hne : (1 : Nat) ≠ t - 1 := by
        have hb := is8Bit_bounds h8
        unfold gbRegisterF at htF
        omega
      simp only [updateFn, if_neg hne]
      exact hc
  · by_cases h16 : (is16Bit t && !isCombined t) = true
    · unfold pokeRegister
      rw [if_neg h8, if_pos h16]
      by_cases hsp : t = gbRegisterSP
      · rw [if_pos hsp]
        simp only [Option.getD_none]
        exact hc
      · rw [if_neg hsp]
        simp only [Option.getD_some]
        exact hc
    · by_cases hAF : t = gbRegisterAF
      · unfold pokeRegister
        rw [if_neg h8, if_neg h16, if_pos hAF]
        simp only [Option.getD_some]
        simp only [updateFn, gbRegisterA, gbRegisterF]
        norm_num
        rw [and15_of_and255]
        exact hv (Or.inr hAF)
      · by_cases hBC : t = gbRegisterBC
        · unfold pokeRegister
          rw [if_neg h8, if_neg h16, if_neg hAF, if_pos hBC]
          simp only [Option.getD_some]
          simp only [updateFn, gbRegisterB, gbRegisterC]
          norm_num
          exact hc
        · by_cases hDE : t = gbRegisterDE
          · unfold pokeRegister
            rw [if_neg h8, if_neg h16, if_neg hAF, if_neg hBC, if_pos hDE]
            simp only [Option.getD_some]
            simp only [updateFn, gbRegisterD, gbRegisterE]
            norm_num
            exact hc
          · by_cases hHL : t = gbRegisterHL
            · unfold pokeRegister
              rw [if_neg h8, if_neg h16, if_neg hAF, if_neg hBC, if_neg hDE,
                if_pos hHL]
              simp only [Option.getD_some]
              simp only [updateFn, gbRegisterH, gbRegisterL]
              norm_num
              exact hc
            · unfold pokeRegister
              rw [if_neg h8, if_neg h16, if_neg hAF, if_neg hBC, if_neg hDE,
                if_neg hHL]
              simp only [Option.getD_none]
              exact hc

/-- C7 counterexample: a single write of 0x0F to register F makes F read
back as 0x0F, whose low nibble is not zero - the register file never masks
F's low nibble. -/
theorem c7_counterexample_f_low_nibble :
    readRegister (applyWrites newGBCPU [(0x0F, gbRegisterF)]) gbRegisterF =
      some 0x0F
    ∧ (0x0F : Nat) &&& 0x0F ≠ 0 := by
  exact ⟨by decide, by decide⟩

/-- C7 (amended): starting from a register file whose F byte has a zero low
nibble, any sequence of register writes in which every write targeting F or
AF writes a value whose low byte has a zero low nibble leaves F reading with
a zero low nibble; writes to other registers never touch F's cell. (The
claim as stated, for arbitrary writes, is false: see the counterexample.) -/
theorem c7_f_low_nibble_amended : ∀ (ws : List (Nat × Nat)) (c : gbCPU),
    c.reg8 (gbRegisterF - 1) &&& 0x0F = 0 →
    (∀ w ∈ ws, (w.2 = gbRegisterF ∨ w.2 = gbRegisterAF) → w.1 &&& 0x0F = 0) →
    ∃ v, readRegister (applyWrites c ws) gbRegisterF = some v ∧
      v &&& 0x0F = 0 := by
  intro ws
  induction ws with
  | nil =>
    intro c hc hws
    exact ⟨c.reg8 (gbRegisterF - 1), rfl, hc⟩
  | cons w ws ih =>
    intro c hc hws
    exact ih ((pokeRegister c w.1 w.2).getD c)
      (pokeRegister_preserves_F_nibble c w.1 w.2 hc (hws w (by simp)))
      (fun w2 hw2 => hws w2 (by simp [hw2]))

/-- Witness for the amended C7: writing 0x20 to F keeps the low nibble
zero. -/
theorem c7_f_low_nibble_amended_witness :
    ∃ v, readRegister (applyWrites newGBCPU [(0x20, gbRegisterF)])
      gbRegisterF = some v ∧ v &&& 0x0F = 0 :=
  c7_f_low_nibble_amended [(0x20, gbRegisterF)] newGBCPU (by decide) (by decide)

lemma pokeRegisterIntoRegister_getD_reg16 (c : gbCPU) (src dst : Nat)
    (hd : dst ≤ 8) :
    ((pokeRegisterIntoRegister c src dst).getD c).reg16 = c.reg16 := by
  unfold pokeRegisterIntoRegister
  cases hrr : readRegister c src with
  | none => rfl
  | some v => exact pokeRegister_getD_reg16 c v dst hd

lemma pokeRAMIntoRegister_fst_reg16 (c : gbCPU) (r : gbRAM) (t addr : Nat)
    (b : Bool) (ht : t ≤ 8) :
    (pokeRAMIntoRegister c r t addr b).1.reg16 = c.reg16 := by
  unfold pokeRAMIntoRegister
  cases hres : (if !b then readN r addr 2 else readN r addr 1) with
  | error e => rfl
  | ok vals =>
    show (match pokeRegister c
          (if !b then ((vals.getD 0 0 <<< 8) % 256 + vals.getD 1 0) % 65536
           else vals.getD 0 0) t with
          | none => (c, some GbError.unknownRegisterType)
          | some c2 => (c2, none)).1.reg16 = c.reg16
    cases hpk : pokeRegister c
        (if !b then ((vals.getD 0 0 <<< 8) % 256 + vals.getD 1 0) % 65536
         else vals.getD 0 0) t with
    | none => rfl
    | some c2 =>
      have h := pokeRegister_getD_reg16 c
        (if !b then ((vals.getD 0 0 <<< 8) % 256 + vals.getD 1 0) % 65536
         else vals.getD 0 0) t ht
      rw [hpk] at h
      simpa using h

lemma execute_fst_reg16 (c : gbCPU) (r : gbRAM) (op : gbOpcode) :
    (execute c r op).1.reg16 = c.reg16 := by
  unfold execute
  by_cases h1 : op.tipe = gbOpcodeLDRRp
  · rw [if_pos h1]
    cases hpp : pokeRegisterIntoRegister c (decodeRegisterType op.second)
        (decodeRegisterType op.first) with
    | none => simp only [hpp]
    | some c2 =>
      have h := pokeRegisterIntoRegister_getD_reg16 c
        (decodeRegisterType op.second) (decodeRegisterType op.first)
        (decodeRegisterType_le _)
      rw [hpp] at h
      simp only [hpp]
      simpa using h
  · rw [if_neg h1]
    by_cases h2 : op.tipe = gbOpcodeLDRHl
    · rw [if_pos h2]
      exact pokeRAMIntoRegister_fst_reg16 c r _ _ true (decodeRegisterType_le _)
    · rw [if_neg h2]
      by_cases h3 : op.tipe = gbOpcodeLDHlR
      · rw [if_pos h3]
        rfl
      · rw [if_neg h3]

lemma readRegister_PC (c : gbCPU) :
    readRegister c gbRegisterPC =
      some (c.reg16 (gbRegisterPC - gbRegisterSP - 1)) := rfl

/-- C8: executing any decoded instruction, from any starting CPU and RAM
state, leaves the program counter register PC unchanged, whether the
execution succeeds, fails or would panic. -/
theorem c8_execute_preserves_PC (c : gbCPU) (r : gbRAM) (op : gbOpcode) :
    readRegister (execute c r op).1 gbRegisterPC =
      readRegister c gbRegisterPC := by
  rw [readRegister_PC, readRegister_PC, execute_fst_reg16]

lemma pokeRegister_getD_reads_ne (c : gbCPU) (v dst : Nat) (hd : dst ≤ 8)
    (t : Nat) (h8t : is8Bit t = true) (hne : t ≠ dst) :
    readRegister ((pokeRegister c v dst).getD c) t = readRegister c t := by
  have hbt := is8Bit_bounds h8t
  interval_cases dst <;>
    first
      | rfl
      | (rw [pokeRegister_8bit _ _ _ (by decide), readRegister_8bit _ _ h8t,
            readRegister_8bit _ _ h8t]
         simp only [Option.getD_some, updateFn]
         rw [if_neg (by omega)])

lemma pokeRegisterIntoRegister_getD_reads_ne (c : gbCPU) (src dst : Nat)
    (hd : dst ≤ 8) (t : Nat) (h8t : is8Bit t = true) (hne : t ≠ dst) :
    readRegister ((pokeRegisterIntoRegister c src dst).getD c) t =
      readRegister c t := by
  unfold pokeRegisterIntoRegister
  cases hrr : readRegister c src with
  | none => rfl
  | some v => exact pokeRegister_getD_reads_ne c v dst hd t h8t hne

/-- C10: executing a LoadRegisterFromRegister instruction leaves the whole
address space unchanged, leaves both 16-bit standalone register cells (SP,
PC) unchanged, and leaves every 8-bit register other than the destination
register reading as before. -/
theorem c10_ldrr_frame (c : gbCPU) (rm : gbRAM) (hd f s cy : Nat)
    (d : List Nat) :
    (execute c rm { header := hd, first := f, second := s, data := d,
                      tipe := gbOpcodeLDRRp, cycles := cy }).2.1 = rm
    ∧ (execute c rm { header := hd, first := f, second := s, data := d,
                      tipe := gbOpcodeLDRRp, cycles := cy }).1.reg16 = c.reg16
    ∧ ∀ t, is8Bit t = true → t ≠ decodeRegisterType f →
        readRegister (execute c rm
          { header := hd, first := f, second := s, data := d,
            tipe := gbOpcodeLDRRp, cycles := cy }).1 t = readRegister c t := by
  refine ⟨?_, ?_, ?_⟩
  · simp only [execute, if_true]
    cases hpp : pokeRegisterIntoRegister c (decodeRegisterType s)
        (decodeRegisterType f) with
    | none => rfl
    | some c2 => rfl
  · exact execute_fst_reg16 c rm
      { header := hd, first := f, second := s, data := d,
        tipe := gbOpcodeLDRRp, cycles := cy }
  intro t h8t hne
  simp only [execute, if_true]
  cases hpp : pokeRegisterIntoRegister c (decodeRegisterType s)
      (decodeRegisterType f) with
  | none => rfl
  | some c2 =>
    have h := pokeRegisterIntoRegister_getD_reads_ne c (decodeRegisterType s)
      (decodeRegisterType f) (decodeRegisterType_le f) t h8t hne
    rw [hpp] at h
    simpa using h

/-- Witness for C10: LD B,C on the fresh machine leaves RAM, the reg16
cells and register C unchanged. -/
theorem c10_ldrr_frame_witness :
    (execute newGBCPU newGBRAM
      { header := 1, first := 0, second := 1, data := [],
        tipe := gbOpcodeLDRRp, cycles := 1 }).2.1 = newGBRAM
    ∧ readRegister (execute newGBCPU newGBRAM
      { header := 1, first := 0, second := 1, data := [],
        tipe := gbOpcodeLDRRp, cycles := 1 }).1
        gbRegisterC = readRegister newGBCPU gbRegisterC := by
  have h := c10_ldrr_frame newGBCPU newGBRAM 1 0 1 1 []
  exact ⟨h.1, h.2.2 gbRegisterC (by decide) (by decide)⟩

end Yage
